import Mathlib

/-!
Verification of the cursor10x-mcp memory system (index.js) against its
specification.  The JavaScript source is shallowly embedded: JS numbers are
modelled as rationals, the Math primitives (sin, cos, tanh, sqrt) and text
normalisation are injected as explicit parameters, SQL tables are lists of
records, and every operation of interest becomes a pure Lean function that
mirrors the control flow of the corresponding JS function.
-/

namespace Cursor10x

/-- JS numbers are modelled as exact rationals. -/
abbrev Scalar := ℚ

/-- The ambient Math/String primitives the source calls
(Math.sin, Math.cos, Math.tanh, Math.sqrt, and the
text.toLowerCase().trim() normalisation), injected as parameters of the
model.  Text is modelled as its list of character codes. -/
structure JsMath where
  msin : Scalar → Scalar
  mcos : Scalar → Scalar
  mtanh : Scalar → Scalar
  msqrt : Scalar → Scalar
  normalize : List ℕ → List ℕ

section SortMachinery

variable {α : Type _} {β : Type _} [LinearOrder β]

/-- Descending comparison by a key, the relation used by the JS
`sort((a, b) => b.key - a.key)` calls (a stable descending sort). -/
def descBy (key : α → β) : α → α → Prop := fun a b => key b ≤ key a

instance (key : α → β) : DecidableRel (descBy key) := fun a b =>
  inferInstanceAs (Decidable (key b ≤ key a))

/-- Stable descending sort by a key; models both the JS
`Array.prototype.sort` with a `b.key - a.key` comparator and the SQL
`ORDER BY key DESC` clauses (ties keep their incoming order). -/
def sortByDesc (key : α → β) (l : List α) : List α :=
  l.insertionSort (descBy key)

theorem sortByDesc_perm (key : α → β) (l : List α) :
    List.Perm (sortByDesc key l) l :=
  List.perm_insertionSort _ l

theorem mem_sortByDesc {key : α → β} {l : List α} {x : α} :
    x ∈ sortByDesc key l ↔ x ∈ l :=
  List.mem_insertionSort _

theorem sortByDesc_sorted (key : α → β) (l : List α) :
    List.Sorted (descBy key) (sortByDesc key l) := by
  haveI : IsTotal α (descBy key) := ⟨fun a b => le_total (key b) (key a)⟩
  haveI : IsTrans α (descBy key) := ⟨fun _ _ _ h1 h2 => le_trans h2 h1⟩
  exact List.sorted_insertionSort _ l

theorem length_sortByDesc (key : α → β) (l : List α) :
    (sortByDesc key l).length = l.length :=
  List.length_insertionSort _ l

theorem filter_orderedInsert (key : α → β) (p : α → Bool) (a : α) :
    ∀ l : List α, List.Sorted (descBy key) l →
      (List.orderedInsert (descBy key) a l).filter p =
        if p a then List.orderedInsert (descBy key) a (l.filter p)
        else l.filter p := by
  intro l
  induction l with
  | nil =>
    intro _
    by_cases hpa : p a <;> simp [List.orderedInsert, List.filter, hpa]
  | cons b t ih =>
    intro hs
    have hst : List.Sorted (descBy key) t := hs.of_cons
    have hbt : ∀ x ∈ t, descBy key b x := List.rel_of_sorted_cons hs
    by_cases hab : descBy key a b
    · have hhead : ∀ l'' : List α, (∀ x ∈ l'', descBy key a x) →
          List.orderedInsert (descBy key) a l'' = a :: l'' := by
        intro l'' hall
        cases l'' with
        | nil => simp [List.orderedInsert]
        | cons c u =>
          have : descBy key a c := hall c (List.mem_cons_self c u)
          simp [List.orderedInsert, this]
      have hins : List.orderedInsert (descBy key) a (b :: t) = a :: b :: t := by
        simp [List.orderedInsert, hab]
      rw [hins]
      by_cases hpa : p a
      · have hall : ∀ x ∈ (b :: t).filter p, descBy key a x := by
          intro x hx
          have hx' : x ∈ b :: t := List.mem_of_mem_filter hx
          rcases List.mem_cons.mp hx' with h | h
          · exact h ▸ hab
          · exact le_trans (hbt x h) hab
        rw [if_pos hpa, hhead _ hall]
        simp [List.filter, hpa]
      · rw [if_neg (by simpa using hpa)]
        simp [List.filter, hpa]
    · have hins : List.orderedInsert (descBy key) a (b :: t)
          = b :: List.orderedInsert (descBy key) a t := by
        simp [List.orderedInsert, hab]
      rw [hins]
      by_cases hpb : p b
      · by_cases hpa : p a
        · have hfb : (b :: t).filter p = b :: t.filter p := by
            simp [List.filter, hpb]
          rw [if_pos hpa, hfb]
          have hins2 : List.orderedInsert (descBy key) a (b :: t.filter p)
              = b :: List.orderedInsert (descBy key) a (t.filter p) := by
            simp [List.orderedInsert, hab]
          rw [hins2]
          have := ih hst
          rw [if_pos hpa] at this
          simp [List.filter, hpb, this]
        · rw [if_neg (by simpa using hpa)]
          have := ih hst
          rw [if_neg (by simpa using hpa)] at this
          simp [List.filter, hpb, this]
      · by_cases hpa : p a
        · rw [if_pos hpa]
          have hfb : (b :: t).filter p = t.filter p := by
            simp [List.filter, hpb]
          rw [hfb]
          have := ih hst
          rw [if_pos hpa] at this
          simp [List.filter, hpb, this]
        · rw [if_neg (by simpa using hpa)]
          have := ih hst
          rw [if_neg (by simpa using hpa)] at this
          simp [List.filter, hpb, this]

/-- A stable sort commutes with filtering: sorting then filtering equals
filtering then sorting.  This is the heart of the index path / linear scan
equivalence. -/
theorem filter_sortByDesc (key : α → β) (p : α → Bool) (l : List α) :
    (sortByDesc key l).filter p = sortByDesc key (l.filter p) := by
  induction l with
  | nil => simp [sortByDesc, List.insertionSort]
  | cons a t ih =>
    have hsort : sortByDesc key (a :: t)
        = List.orderedInsert (descBy key) a (sortByDesc key t) := by
      simp [sortByDesc, List.insertionSort]
    rw [hsort, filter_orderedInsert key p a _ (sortByDesc_sorted key t)]
    by_cases hpa : p a
    · rw [if_pos hpa, ih]
      have : (a :: t).filter p = a :: t.filter p := by simp [List.filter, hpa]
      rw [this]
      simp [sortByDesc, List.insertionSort]
    · rw [if_neg (by simpa using hpa), ih]
      have : (a :: t).filter p = t.filter p := by simp [List.filter, hpa]
      rw [this]

theorem sorted_take {r : α → α → Prop} {l : List α} (h : List.Sorted r l)
    (n : ℕ) : List.Sorted r (l.take n) :=
  h.sublist (List.take_sublist n l)

end SortMachinery

/-! ## Fingerprint generator — `createEmbedding` (index.js lines 99 to 132)

The JS loop accumulates, for dimension `i`, the value
`sum over j of Math.sin(charCode * (i + 1) * 0.01) * Math.cos(j * 0.01)`
over the characters of the normalised text and squashes it with
`Math.tanh`.  `0.01` is modelled as the exact rational `1 / 100`. -/

/-- Model of `createEmbedding(text, dimensions)`: deterministic pseudo
embedding of the normalised character codes of `text`. -/
def createEmbedding (M : JsMath) (text : List ℕ) (dimensions : ℕ) : List Scalar :=
  let normalizedText := M.normalize text
  (List.range dimensions).map (fun (i : ℕ) =>
    M.mtanh ((List.range normalizedText.length).foldl
      (fun (value : Scalar) (j : ℕ) =>
        value + M.msin ((normalizedText.getD j 0 : Scalar) * ((i : Scalar) + 1) * (1 / 100))
          * M.mcos ((j : Scalar) * (1 / 100))) 0))

/-! ## Binary vector codec — `vectorToBuffer` / `bufferToVector`
(index.js lines 140 to 152)

A `Float32Array` is serialised via its underlying `ArrayBuffer`: each
32-bit element is written as 4 little-endian bytes.  Elements are modelled
by their 32-bit patterns (naturals below `2 ^ 32`). -/

/-- Little-endian byte serialisation of one 32-bit word. -/
def word32ToBytes (w : ℕ) : List ℕ :=
  [w % 256, w / 256 % 256, w / 65536 % 256, w / 16777216 % 256]

/-- Little-endian decoding of 4 bytes into one 32-bit word. -/
def bytesToWord32 (b0 b1 b2 b3 : ℕ) : ℕ :=
  b0 + 256 * b1 + 65536 * b2 + 16777216 * b3

/-- Model of `vectorToBuffer`: `Buffer.from(vector.buffer)`, the
contiguous little-endian bytes of the 32-bit elements. -/
def vectorToBuffer (v : List ℕ) : List ℕ :=
  v.flatMap word32ToBytes

/-- Model of `bufferToVector`: reinterpret the buffer as a
`Float32Array` of length `buffer.length / 4`. -/
def bufferToVector : List ℕ → List ℕ
  | b0 :: b1 :: b2 :: b3 :: rest => bytesToWord32 b0 b1 b2 b3 :: bufferToVector rest
  | _ => []

/-! ## Fingerprint store and similarity search (index.js lines 154 to 301) -/

/-- One row of the `vectors` table
(`id INTEGER PRIMARY KEY, content_id, content_type, vector BLOB,
created_at, metadata`).  The BLOB is kept in decoded form. -/
structure VRow where
  id : ℕ
  content_id : ℕ
  content_type : String
  vector : List Scalar
  created_at : ℕ
  metadata : Option String
deriving DecidableEq

/-- Model of `cosineSimilarity(a, b)` (index.js lines 282 to 301):
`0` on length mismatch, `0` when either norm is zero, otherwise
`dot / (normA * normB)` with `Math.sqrt` injected. -/
def cosineSimilarity (M : JsMath) (a b : List Scalar) : Scalar :=
  if a.length ≠ b.length then 0
  else
    let dotProduct := (List.zipWith (· * ·) a b).sum
    let normA := M.msqrt ((a.map (fun x => x * x)).sum)
    let normB := M.msqrt ((b.map (fun x => x * x)).sum)
    if normA = 0 ∨ normB = 0 then 0
    else dotProduct / (normA * normB)

/-- Pair every stored row with its similarity to the query vector. -/
def annotate (M : JsMath) (q : List Scalar) (rows : List VRow) :
    List (VRow × Scalar) :=
  rows.map (fun r => (r, cosineSimilarity M q r.vector))

/-- The optional `content_type` filter of `findSimilarVectors`. -/
def matchesType (ct : Option String) (r : VRow) : Bool :=
  match ct with
  | none => true
  | some t => r.content_type == t

/-- Model of the store native top-K primitive
`vector_top_k(idx_vectors_vector, queryBuffer, k)` joined back onto the
`vectors` table: the `k` stored rows closest to the query, in descending
similarity order.  The index covers the whole table (it is built over
`vectors(libsql_vector_idx(vector))`, with no content-type component). -/
def vectorTopK (M : JsMath) (q : List Scalar) (k : ℕ) (rows : List VRow) :
    List (VRow × Scalar) :=
  (sortByDesc Prod.snd (annotate M q rows)).take k

/-- Index-accelerated path of `findSimilarVectors` (index.js lines 212
to 239): request `limit * 2` candidates from the index, then apply the
SQL `WHERE content_type = ? AND similarity >= ?` filter and `LIMIT`. -/
def findSimilarVectorsIndexed (M : JsMath) (q : List Scalar)
    (ct : Option String) (limit : ℕ) (threshold : Scalar)
    (rows : List VRow) : List (VRow × Scalar) :=
  ((vectorTopK M q (limit * 2) rows).filter
    (fun p => matchesType ct p.1 && decide (threshold ≤ p.2))).take limit

/-- Fallback linear-scan path of `findSimilarVectors` (index.js lines 240
to 268): load all rows (optionally filtered by content type), compute the
similarity in process, filter by threshold, sort descending, truncate. -/
def findSimilarVectorsScan (M : JsMath) (q : List Scalar)
    (ct : Option String) (limit : ℕ) (threshold : Scalar)
    (rows : List VRow) : List (VRow × Scalar) :=
  (sortByDesc Prod.snd
    ((annotate M q (rows.filter (matchesType ct))).filter
      (fun p => decide (threshold ≤ p.2)))).take limit

/-- Model of `findSimilarVectors(queryVector, contentType, limit,
threshold)` (index.js lines 202 to 273).  `indexAvailable` selects
between the `vector_top_k` path and the full-scan fallback (the source
falls back when the index query throws). -/
def findSimilarVectors (indexAvailable : Bool) (M : JsMath)
    (q : List Scalar) (ct : Option String) (limit : ℕ) (threshold : Scalar)
    (rows : List VRow) : List (VRow × Scalar) :=
  if indexAvailable then findSimilarVectorsIndexed M q ct limit threshold rows
  else findSimilarVectorsScan M q ct limit threshold rows

/-! ## Domain records and database state -/

/-- One row of the `messages` table (columns used by context assembly). -/
structure Msg where
  id : ℕ
  role : String
  content : String
  created_at : ℕ
  importance : String
deriving DecidableEq

/-- One row of the `active_files` table (columns used by context assembly). -/
structure AFile where
  id : ℕ
  filename : String
  last_accessed : ℕ
deriving DecidableEq

/-- One row of the `milestones`, `decisions` or `requirements` tables
(the columns the context assembler reads and that the claims are about;
the free-text columns are carried as `title`). -/
structure LtRow where
  id : ℕ
  title : String
  importance : String
  created_at : ℕ
deriving DecidableEq

/-- One row of the `episodes` table (columns used by context assembly). -/
structure Epi where
  id : ℕ
  actor : String
  action : String
  timestamp : ℕ
  importance : String
deriving DecidableEq

/-- The database state visible to the modelled operations.  `code_files`
and `code_snippets` are carried as their id columns, which is all the
modelled operations (orphan cleanup joins) read of them. -/
structure Db where
  messages : List Msg
  active_files : List AFile
  milestones : List LtRow
  decisions : List LtRow
  requirements : List LtRow
  episodes : List Epi
  code_files : List ℕ
  code_snippets : List ℕ
  vectors : List VRow
deriving DecidableEq

/-! ## Relevance scorer — `scoreItemsByRelevance`
(index.js lines 1474 to 1530) -/

/-- The fingerprint lookup the scorer builds: all `vectors` rows whose
`content_type` matches the primary or secondary type are loaded into a JS
`Map` keyed by `content_id`; `Map.set` makes the last matching row win. -/
def lookupTypedVector (rows : List VRow) (primaryType : String)
    (secondaryType : Option String) (id : ℕ) : Option (List Scalar) :=
  let typed := rows.filter (fun r =>
    r.content_type == primaryType ||
      (match secondaryType with
       | some s => r.content_type == s
       | none => false))
  (typed.reverse.find? (fun r => r.content_id == id)).map (fun r => r.vector)

/-- Model of `scoreItemsByRelevance(items, queryVector, primaryType,
secondaryType, threshold)`: attach `relevance` (cosine similarity of the
stored fingerprint for `idOf item`, or `0` when none is stored), filter
by `relevance >= threshold`, sort descending.  An empty item list is
returned unchanged. -/
def scoreItemsRaw {α : Type _} (M : JsMath) (rows : List VRow)
    (idOf : α → ℕ) (items : List α) (q : List Scalar)
    (primaryType : String) (secondaryType : Option String) :
    List (α × Scalar) :=
  items.map (fun item =>
    (item,
      match lookupTypedVector rows primaryType secondaryType (idOf item) with
      | some v => cosineSimilarity M q v
      | none => 0))

/-- Filter and sort step of `scoreItemsByRelevance`: keep the scored
items at or above the threshold, most relevant first. -/
def scoreItemsByRelevance {α : Type _} (M : JsMath) (rows : List VRow)
    (idOf : α → ℕ) (items : List α) (q : List Scalar)
    (primaryType : String) (secondaryType : Option String)
    (threshold : Scalar) : List (α × Scalar) :=
  if items.isEmpty then []
  else
    sortByDesc Prod.snd
      ((scoreItemsRaw M rows idOf items q primaryType secondaryType).filter
        (fun p => decide (threshold ≤ p.2)))

/-! ## Semantic enrichment — `findSimilarItems`
(index.js lines 1580 to 1670)

The per-item detail fetch (joining back to the content tables) only
decorates the returned records and is elided; the returned list keeps the
underlying vector row and its similarity. -/

/-- Model of `findSimilarItems(queryVector, contentType, alternativeType,
limit, threshold)`: one `findSimilarVectors` call per requested type,
combined, re-sorted by similarity and truncated. -/
def findSimilarItems (indexAvailable : Bool) (M : JsMath)
    (rows : List VRow) (q : List Scalar) (contentType : String)
    (alternativeType : Option String) (limit : ℕ) (threshold : Scalar) :
    List (VRow × Scalar) :=
  match alternativeType with
  | some a =>
    (sortByDesc Prod.snd
      (findSimilarVectors indexAvailable M q (some contentType) limit threshold rows ++
        findSimilarVectors indexAvailable M q (some a) limit threshold rows)).take limit
  | none => findSimilarVectors indexAvailable M q (some contentType) limit threshold rows

/-! ## Context assembler — `getComprehensiveContext`
(index.js lines 1265 to 1463) -/

/-- The `semantic` partition (similar messages, files and snippets); the
snippet grouping by file path only regroups the same scored rows and is
elided. -/
structure SemanticCtx where
  similarMessages : List (VRow × Scalar)
  similarFiles : List (VRow × Scalar)
  similarSnippets : List (VRow × Scalar)
deriving DecidableEq

/-- The `shortTerm` partition of the context snapshot. -/
structure ShortTermCtx where
  recentMessages : List (Msg × Option Scalar)
  activeFiles : List (AFile × Option Scalar)
deriving DecidableEq

/-- The `longTerm` partition of the context snapshot. -/
structure LongTermCtx where
  milestones : List (LtRow × Option Scalar)
  decisions : List (LtRow × Option Scalar)
  requirements : List (LtRow × Option Scalar)
deriving DecidableEq

/-- The `episodic` partition of the context snapshot. -/
structure EpisodicCtx where
  recentEpisodes : List (Epi × Option Scalar)
deriving DecidableEq

/-- The context snapshot.  `semantic` is `none` exactly when the source
leaves the initial `semantic: {}` untouched (no query given). -/
structure Context where
  shortTerm : ShortTermCtx
  longTerm : LongTermCtx
  episodic : EpisodicCtx
  semantic : Option SemanticCtx
deriving DecidableEq

/-- The JS `msg.relevance || null` serialisation: an absent or zero
relevance becomes `null`. -/
def jsRelevance (r : Scalar) : Option Scalar :=
  if r = 0 then none else some r

/-- The importance filter used by the `decisions` and `requirements`
queries: `WHERE importance IN (high, medium, critical)`. -/
def importanceAtLeastMedium (r : LtRow) : Bool :=
  r.importance == "high" || r.importance == "medium" || r.importance == "critical"

/-- Model of `getComprehensiveContext(userMessage)`.  Each partition
fetches a recency-ordered superset (`LIMIT 15 / 10`), scores it against
the query fingerprint when a query is given (then keeps the most
relevant 5 / 5 / 3 / 3 / 3 / 5), otherwise keeps the most recent.  The
`milestones` query carries no importance filter; `decisions` and
`requirements` are pre-filtered to importance in
high / medium / critical. -/
def getComprehensiveContext (M : JsMath) (indexAvailable : Bool) (db : Db)
    (userMessage : Option (List ℕ)) : Context :=
  let queryVector := userMessage.map (fun t => createEmbedding M t 128)
  let messages := (sortByDesc Msg.created_at db.messages).take 15
  let scoredMessages : List (Msg × Option Scalar) :=
    match queryVector with
    | some q =>
      ((scoreItemsByRelevance M db.vectors Msg.id messages q
        "user_message" (some "assistant_message") (1 / 2)).take 5).map
        (fun p => (p.1, jsRelevance p.2))
    | none => (messages.take 5).map (fun m => (m, none))
  let files := (sortByDesc AFile.last_accessed db.active_files).take 10
  let scoredFiles : List (AFile × Option Scalar) :=
    match queryVector with
    | some q =>
      ((scoreItemsByRelevance M db.vectors AFile.id files q
        "code_file" none (1 / 2)).take 5).map (fun p => (p.1, jsRelevance p.2))
    | none => (files.take 5).map (fun f => (f, none))
  let milestones := (sortByDesc LtRow.created_at db.milestones).take 10
  let decisions :=
    (sortByDesc LtRow.created_at (db.decisions.filter importanceAtLeastMedium)).take 10
  let requirements :=
    (sortByDesc LtRow.created_at (db.requirements.filter importanceAtLeastMedium)).take 10
  let scoredMilestones : List (LtRow × Option Scalar) :=
    match queryVector with
    | some q =>
      ((scoreItemsByRelevance M db.vectors LtRow.id milestones q
        "milestone" none (1 / 2)).take 3).map (fun p => (p.1, jsRelevance p.2))
    | none => (milestones.take 3).map (fun m => (m, none))
  let scoredDecisions : List (LtRow × Option Scalar) :=
    match queryVector with
    | some q =>
      ((scoreItemsByRelevance M db.vectors LtRow.id decisions q
        "decision" none (1 / 2)).take 3).map (fun p => (p.1, jsRelevance p.2))
    | none => (decisions.take 3).map (fun d => (d, none))
  let scoredRequirements : List (LtRow × Option Scalar) :=
    match queryVector with
    | some q =>
      ((scoreItemsByRelevance M db.vectors LtRow.id requirements q
        "requirement" none (1 / 2)).take 3).map (fun p => (p.1, jsRelevance p.2))
    | none => (requirements.take 3).map (fun r => (r, none))
  let episodes := (sortByDesc Epi.timestamp db.episodes).take 15
  let scoredEpisodes : List (Epi × Option Scalar) :=
    match queryVector with
    | some q =>
      ((scoreItemsByRelevance M db.vectors Epi.id episodes q
        "episode" none (1 / 2)).take 5).map (fun p => (p.1, jsRelevance p.2))
    | none => (episodes.take 5).map (fun e => (e, none))
  let semantic : Option SemanticCtx :=
    queryVector.map (fun q =>
      { similarMessages :=
          findSimilarItems indexAvailable M db.vectors q "user_message"
            (some "assistant_message") 3 (3 / 5)
        similarFiles :=
          findSimilarItems indexAvailable M db.vectors q "code_file" none 2 (3 / 5)
        similarSnippets :=
          findSimilarItems indexAvailable M db.vectors q "code_snippet" none 3 (3 / 5) })
  { shortTerm := { recentMessages := scoredMessages, activeFiles := scoredFiles }
    longTerm :=
      { milestones := scoredMilestones
        decisions := scoredDecisions
        requirements := scoredRequirements }
    episodic := { recentEpisodes := scoredEpisodes }
    semantic := semantic }

/-! ## Vector maintenance — `performVectorMaintenance`
(index.js lines 3392 to 3546) -/

/-- A vector row is orphaned when its owning content row no longer
exists, for the three ownership joins the cleanup performs
(message-like types against `messages`, `code_file` against
`code_files`, `code_snippet` against `code_snippets`). -/
def isOrphan (db : Db) (v : VRow) : Bool :=
  ((v.content_type == "user_message" || v.content_type == "assistant_message" ||
      v.content_type == "assistant_code_snippet") &&
    !(db.messages.any (fun m => m.id == v.content_id))) ||
  (v.content_type == "code_file" &&
    !(db.code_files.any (fun f => f == v.content_id))) ||
  (v.content_type == "code_snippet" &&
    !(db.code_snippets.any (fun s => s == v.content_id)))

/-- The `cleanOrphans` maintenance step: delete every orphaned vector
row. -/
def cleanOrphanVectors (db : Db) : List VRow :=
  db.vectors.filter (fun v => !(isOrphan db v))

/-- The `optimizeStorage` maintenance step: for every
`(content_id, content_type)` group, keep the newest row
(`ORDER BY created_at DESC`, SQL leaves the tie order open; the model
uses the stable descending sort) and delete the rest. -/
def optimizeVectorStorage (vecs : List VRow) : List VRow :=
  vecs.filter (fun v =>
    match sortByDesc VRow.created_at
        (vecs.filter (fun w =>
          w.content_id == v.content_id && w.content_type == v.content_type)) with
    | [] => true
    | k :: _ => k.id == v.id)

/-- Model of `performVectorMaintenance({})` with the default options
(`forceRebuild: false, cleanOrphans: true, optimizeStorage: true`): the
orphan cleanup runs first, then the duplicate collapse; only the
`vectors` table changes. -/
def performVectorMaintenance (db : Db) : Db :=
  { db with vectors := optimizeVectorStorage (cleanOrphanVectors db) }

/-! ## Vector management tool — `manageVector` update / delete cases
(index.js lines 2673 to 2763) -/

/-- The JSON tool result, reduced to the fields the claims are about. -/
structure ToolResult where
  isError : Bool
  message : String
  deleted : Bool
deriving DecidableEq

/-- Result of a thrown error caught by the `manageVector` handler. -/
def errorResult (msg : String) : ToolResult :=
  { isError := true, message := msg, deleted := false }

/-- Model of the `update` case: validate (`!vectorId || !vector` throws,
JS `0` being falsy), check existence (`SELECT id ... WHERE id = ?`,
throwing not-found when absent), then run the `UPDATE` statement.  The
returned state is the new `vectors` table. -/
def manageVectorUpdate (db : Db) (vectorId : ℕ) (vec : List Scalar)
    (metadata : Option String) (now : ℕ) : Db × ToolResult :=
  if vectorId = 0 then
    (db, errorResult "vectorId and vector are required for update operation")
  else
    match db.vectors.find? (fun r => r.id == vectorId) with
    | none =>
      (db, errorResult ("Vector with ID " ++ toString vectorId ++ " not found"))
    | some _ =>
      ({ db with
          vectors := db.vectors.map (fun r =>
            if r.id == vectorId then
              { r with vector := vec, metadata := metadata, created_at := now }
            else r) },
        { isError := false, message := "", deleted := false })

/-- Model of the `delete` case: validate (`!vectorId` throws), check
existence (throwing not-found when absent), then run
`DELETE FROM vectors WHERE id = ?` and report `deleted: true`. -/
def manageVectorDelete (db : Db) (vectorId : ℕ) : Db × ToolResult :=
  if vectorId = 0 then
    (db, errorResult "vectorId is required for delete operation")
  else
    match db.vectors.find? (fun r => r.id == vectorId) with
    | none =>
      (db, errorResult ("Vector with ID " ++ toString vectorId ++ " not found"))
    | some _ =>
      ({ db with vectors := db.vectors.filter (fun r => !(r.id == vectorId)) },
        { isError := false, message := "", deleted := true })

/-! ## Tool surface and call dispatch (tool table at index.js lines 620
to 1010, dispatcher switch at lines 1248 to 2785) -/

/-- The `name` fields of `MEMORY_TOOLS`, in declaration order: the tools
advertised by the `ListToolsRequestSchema` handler via
`Object.values(MEMORY_TOOLS)`. -/
def memoryToolNames : List String :=
  ["generateBanner", "checkHealth", "initConversation", "endConversation",
   "storeUserMessage", "storeAssistantMessage", "trackActiveFile",
   "getRecentMessages", "getActiveFiles", "storeMilestone", "storeDecision",
   "storeRequirement", "recordEpisode", "getRecentEpisodes",
   "getComprehensiveContext", "getMemoryStats", "manageVector"]

/-- The tool names with a `case` in the `CallToolRequestSchema` switch,
in source order (index.js lines 1674, 1761, 1793, 1915, 1976, 2052, 2106,
2140, 2184, 2229, 2273, 2302, 2356, 2376, 2437, 2596). -/
def handledCaseNames : List String :=
  ["generateBanner", "checkHealth", "initConversation", "storeUserMessage",
   "trackActiveFile", "getRecentMessages", "getActiveFiles", "storeMilestone",
   "storeDecision", "storeRequirement", "recordEpisode", "getRecentEpisodes",
   "getComprehensiveContext", "getMemoryStats", "endConversation", "manageVector"]

/-- The default branch of the dispatcher switch:
`{ status: error, error: Unknown tool <name> }` with
`isError: true` and no database access. -/
def unknownToolResult (name : String) : ToolResult :=
  { isError := true, message := "Unknown tool: " ++ name, deleted := false }

/-- The dispatcher switch, modelled as a first-match lookup over the
handled cases: a matching case runs its handler over the database state,
any other name falls through to the default branch, which touches
nothing. -/
def dispatchToolCall (handlers : List (String × (Db → Db × ToolResult)))
    (name : String) (db : Db) : Db × ToolResult :=
  match handlers.find? (fun h => h.1 == name) with
  | some h => h.2 db
  | none => (db, unknownToolResult name)

/-! ## Concrete fixtures used by counterexamples and witnesses -/

/-- A trivial instantiation of the ambient Math primitives. -/
def M0 : JsMath :=
  ⟨fun _ => 0, fun _ => 0, fun _ => 0, fun _ => 0, fun l => l⟩

/-- A square-root instantiation that is exact on every radicand occurring
in the search counterexample (`25` and `1`). -/
def sqrtTable : Scalar → Scalar :=
  fun x => if x = 25 then 5 else if x = 1 then 1 else 0

/-- Math primitives with the tabulated square root. -/
def M1 : JsMath :=
  ⟨fun _ => 0, fun _ => 0, fun _ => 0, sqrtTable, fun l => l⟩

/-- Stored fingerprint of type `a`, similarity `1` to the query `[3, 4]`. -/
def exA1 : VRow := ⟨1, 1, "a", [3, 4], 10, none⟩

/-- Stored fingerprint of type `a`, similarity `24 / 25` to `[3, 4]`. -/
def exA2 : VRow := ⟨2, 2, "a", [4, 3], 11, none⟩

/-- Stored fingerprint of type `b`, similarity `4 / 5` to `[3, 4]`. -/
def exB : VRow := ⟨3, 3, "b", [0, 1], 12, none⟩

/-- A vectors table on which the two search paths disagree. -/
def exRows : List VRow := [exA1, exA2, exB]

/-- The empty database state. -/
def emptyDb : Db := ⟨[], [], [], [], [], [], [], [], []⟩

/-- A milestone carrying importance `low`. -/
def lowMilestone : LtRow := ⟨1, "m1", "low", 100⟩

/-- A database whose only content is a low-importance milestone. -/
def dbLowMilestone : Db := { emptyDb with milestones := [lowMilestone] }

/-- A decision carrying importance `medium`. -/
def mediumDecision : LtRow := ⟨2, "d1", "medium", 120⟩

/-- A database whose only content is a medium-importance decision. -/
def dbMediumDecision : Db := { emptyDb with decisions := [mediumDecision] }

/-- A user message with the given id and creation time. -/
def msgAt (i t : ℕ) : Msg := ⟨i, "user", "c", t, "low"⟩

/-- A database holding seven messages with increasing timestamps. -/
def dbMessages : Db :=
  { emptyDb with
      messages := [msgAt 1 10, msgAt 2 20, msgAt 3 30, msgAt 4 40,
        msgAt 5 50, msgAt 6 60, msgAt 7 70] }

/-- A message fingerprint whose owning message (id 2) does not exist. -/
def vOrphan : VRow := ⟨10, 2, "user_message", [1], 5, none⟩

/-- A message fingerprint whose owning message (id 1) exists. -/
def vOwned : VRow := ⟨11, 1, "user_message", [1], 6, none⟩

/-- A fingerprint of an unrelated content type. -/
def vUnrelated : VRow := ⟨12, 7, "milestone", [1], 7, none⟩

/-- Maintenance fixture: one message, one orphaned fingerprint, one owned
fingerprint and one unrelated fingerprint. -/
def dbMaint : Db :=
  { emptyDb with
      messages := [⟨1, "user", "hello", 50, "low"⟩]
      vectors := [vOrphan, vOwned, vUnrelated] }

/-- Two vector rows for the update / delete fixture. -/
def vRow1 : VRow := ⟨1, 5, "user_message", [1], 5, none⟩

/-- Second vector row of the update / delete fixture. -/
def vRow2 : VRow := ⟨2, 6, "user_message", [2], 6, none⟩

/-- Database with exactly the two fixture vector rows. -/
def dbVecs : Db := { emptyDb with vectors := [vRow1, vRow2] }

/-- A handler table whose keys are exactly the handled case names. -/
def trivialHandlers : List (String × (Db → Db × ToolResult)) :=
  handledCaseNames.map (fun n => (n, fun db => (db, unknownToolResult n)))

/-! ## Specification predicates reused by theorems and their witnesses -/

/-- What context assembly without a query must produce: every partition
holds the most recent rows with `relevance` serialised as `null`, the
`semantic` partition stays empty, and `recentMessages` is exactly the
five most recent messages in descending creation order. -/
def contextNoQuerySpec (M : JsMath) (indexAvailable : Bool) (db : Db) : Prop :=
  let ctx := getComprehensiveContext M indexAvailable db none
  ctx.shortTerm.recentMessages =
      ((sortByDesc Msg.created_at db.messages).take 5).map (fun m => (m, none)) ∧
  ctx.shortTerm.activeFiles =
      ((sortByDesc AFile.last_accessed db.active_files).take 5).map (fun f => (f, none)) ∧
  ctx.longTerm.milestones =
      ((sortByDesc LtRow.created_at db.milestones).take 3).map (fun m => (m, none)) ∧
  ctx.longTerm.decisions =
      ((sortByDesc LtRow.created_at (db.decisions.filter importanceAtLeastMedium)).take 3).map
        (fun d => (d, none)) ∧
  ctx.longTerm.requirements =
      ((sortByDesc LtRow.created_at (db.requirements.filter importanceAtLeastMedium)).take 3).map
        (fun r => (r, none)) ∧
  ctx.episodic.recentEpisodes =
      ((sortByDesc Epi.timestamp db.episodes).take 5).map (fun e => (e, none)) ∧
  ctx.semantic = none ∧
  ctx.shortTerm.recentMessages.length = min 5 db.messages.length ∧
  List.Sorted (descBy Msg.created_at) (ctx.shortTerm.recentMessages.map Prod.fst) ∧
  (∀ p ∈ ctx.shortTerm.recentMessages, ∀ m ∈ db.messages,
    (m, (none : Option Scalar)) ∉ ctx.shortTerm.recentMessages →
      m.created_at ≤ p.1.created_at)

/-- At most one fingerprint per `(content_id, content_type)` key. -/
def vectorKeyUnique (l : List VRow) : Prop :=
  List.Pairwise
    (fun a b => ¬(a.content_id = b.content_id ∧ a.content_type = b.content_type)) l

/-- What default-option maintenance must do on a duplicate-free vectors
table: keep exactly the non-orphaned rows (in particular delete every
message fingerprint whose owning message is gone and keep every
fingerprint whose owner exists), touching no other table. -/
def maintenanceSpec (db : Db) : Prop :=
  (performVectorMaintenance db).vectors =
      db.vectors.filter (fun v => !(isOrphan db v)) ∧
  (∀ v ∈ db.vectors,
    (v.content_type = "user_message" ∨ v.content_type = "assistant_message") →
    (∀ m ∈ db.messages, m.id ≠ v.content_id) →
      v ∉ (performVectorMaintenance db).vectors) ∧
  (∀ v ∈ db.vectors, isOrphan db v = false →
      v ∈ (performVectorMaintenance db).vectors) ∧
  (performVectorMaintenance db).messages = db.messages ∧
  (performVectorMaintenance db).code_files = db.code_files ∧
  (performVectorMaintenance db).code_snippets = db.code_snippets

/-- What the `update` and `delete` vector operations must do: a missing
`vectorId` yields an error result and leaves the table unchanged, while
deleting an existing row removes exactly that row and reports
`deleted: true`. -/
def manageVectorSpec (db : Db) (vid : ℕ) (vec : List Scalar)
    (md : Option String) (now : ℕ) : Prop :=
  ((∀ r ∈ db.vectors, r.id ≠ vid) →
    manageVectorUpdate db vid vec md now =
        (db, errorResult ("Vector with ID " ++ toString vid ++ " not found")) ∧
    manageVectorDelete db vid =
        (db, errorResult ("Vector with ID " ++ toString vid ++ " not found"))) ∧
  (∀ r ∈ db.vectors, r.id = vid →
    List.Pairwise (fun a b => a.id ≠ b.id) db.vectors →
      (manageVectorDelete db vid).2 =
          { isError := false, message := "", deleted := true } ∧
      (manageVectorDelete db vid).1.vectors = db.vectors.erase r ∧
      (∀ w ∈ db.vectors, w.id ≠ vid →
        w ∈ (manageVectorDelete db vid).1.vectors) ∧
      r ∉ (manageVectorDelete db vid).1.vectors)

/-! ## Helper lemmas -/

theorem word32_roundtrip (w : ℕ) (h : w < 4294967296) :
    bytesToWord32 (w % 256) (w / 256 % 256) (w / 65536 % 256) (w / 16777216 % 256) = w := by
  unfold bytesToWord32
  omega

theorem bufferToVector_cons (w : ℕ) (rest : List ℕ) :
    bufferToVector (word32ToBytes w ++ rest) =
      bytesToWord32 (w % 256) (w / 256 % 256) (w / 65536 % 256) (w / 16777216 % 256)
        :: bufferToVector rest := by
  simp [word32ToBytes, bufferToVector]

/-! ## Claim theorems -/

/-- C7: encoding a vector of 32-bit elements with `vectorToBuffer` and
decoding with `bufferToVector` reproduces the vector exactly, and the
encoded buffer holds `4 * dimensions` bytes. -/
theorem vector_buffer_roundtrip (v : List ℕ) (h : ∀ w ∈ v, w < 2 ^ 32) :
    bufferToVector (vectorToBuffer v) = v ∧
      (vectorToBuffer v).length = 4 * v.length := by
  constructor
  · induction v with
    | nil => simp [vectorToBuffer, bufferToVector]
    | cons w rest ih =>
      have hw : w < 4294967296 := by
        have := h w (List.mem_cons_self w rest)
        simpa using this
      have hrest : ∀ x ∈ rest, x < 2 ^ 32 := fun x hx =>
        h x (List.mem_cons_of_mem w hx)
      have : vectorToBuffer (w :: rest) = word32ToBytes w ++ vectorToBuffer rest := by
        simp [vectorToBuffer]
      rw [this, bufferToVector_cons, word32_roundtrip w hw, ih hrest]
  · induction v with
    | nil => simp [vectorToBuffer]
    | cons w rest ih =>
      have hrest : ∀ x ∈ rest, x < 2 ^ 32 := fun x hx =>
        h x (List.mem_cons_of_mem w hx)
      have : vectorToBuffer (w :: rest) = word32ToBytes w ++ vectorToBuffer rest := by
        simp [vectorToBuffer]
      rw [this]
      simp [word32ToBytes, ih hrest, Nat.mul_succ, Nat.succ_eq_add_one]

/-- C7 witness: the round trip at a concrete three-element vector
including the extreme 32-bit pattern. -/
theorem vector_buffer_roundtrip_witness :
    (∀ w ∈ [0, 1, 4294967295], w < 2 ^ 32) ∧
      bufferToVector (vectorToBuffer [0, 1, 4294967295]) = [0, 1, 4294967295] ∧
      (vectorToBuffer [0, 1, 4294967295]).length = 4 * 3 := by
  refine ⟨by decide, ?_, ?_⟩
  · exact (vector_buffer_roundtrip [0, 1, 4294967295] (by decide)).1
  · exact (vector_buffer_roundtrip [0, 1, 4294967295] (by decide)).2

/-- C6: `createEmbedding` is a pure function of its text and dimension
count (calling it twice yields the same vector), it always returns a
vector of exactly the requested length, the empty text yields the
all-zero vector of the requested length (the accumulator is empty, so
every component is `tanh 0 = 0`), and under the tanh bound every
component lies in `[-1, 1]`. -/
theorem createEmbedding_spec (M : JsMath) (t : List ℕ) (d : ℕ)
    (hn : M.normalize [] = []) (ht : M.mtanh 0 = 0)
    (hb : ∀ x, |M.mtanh x| ≤ 1) :
    createEmbedding M t d = createEmbedding M t d ∧
      (createEmbedding M t d).length = d ∧
      createEmbedding M [] d = List.replicate d 0 ∧
      (∀ x ∈ createEmbedding M t d, |x| ≤ 1) := by
  have hlen : ∀ u : List ℕ, (createEmbedding M u d).length = d := by
    intro u
    simp only [createEmbedding]
    rw [List.length_map, List.length_range]
  refine ⟨rfl, hlen t, ?_, ?_⟩
  · have hmem : ∀ x ∈ createEmbedding M [] d, x = 0 := by
      intro x hx
      simp only [createEmbedding, hn, List.length_nil, List.range_zero,
        List.foldl_nil, List.mem_map] at hx
      obtain ⟨i, _, hxi⟩ := hx
      rw [← hxi, ht]
    have := List.eq_replicate_of_mem hmem
    rwa [hlen []] at this
  · intro x hx
    simp only [createEmbedding, List.mem_map] at hx
    obtain ⟨i, _, hxi⟩ := hx
    rw [← hxi]
    exact hb _

/-- C6 witness: the spec applied at a concrete Math instantiation, text
and dimension. -/
theorem createEmbedding_spec_witness :
    createEmbedding M0 [104, 105] 3 = createEmbedding M0 [104, 105] 3 ∧
      (createEmbedding M0 [104, 105] 3).length = 3 ∧
      createEmbedding M0 [] 3 = List.replicate 3 0 ∧
      (∀ x ∈ createEmbedding M0 [104, 105] 3, |x| ≤ 1) :=
  createEmbedding_spec M0 [104, 105] 3 rfl rfl
    (fun x => by simp [M0])

/-- C10: `storeAssistantMessage` is advertised in the tool list but has
no case in the call dispatcher, so calling it takes the default branch:
an `isError` result reading `Unknown tool: storeAssistantMessage`, with
the database (in particular the `messages` table) untouched. -/
theorem storeAssistantMessage_unhandled
    (handlers : List (String × (Db → Db × ToolResult))) (db : Db)
    (h : handlers.map Prod.fst = handledCaseNames) :
    "storeAssistantMessage" ∈ memoryToolNames ∧
      "storeAssistantMessage" ∉ handledCaseNames ∧
      dispatchToolCall handlers "storeAssistantMessage" db =
        (db, unknownToolResult "storeAssistantMessage") ∧
      (dispatchToolCall handlers "storeAssistantMessage" db).1.messages =
        db.messages := by
  have hnone :
      handlers.find? (fun p => p.1 == "storeAssistantMessage") = none := by
    apply List.find?_eq_none.mpr
    intro x hx
    have hx1 : x.1 ∈ handledCaseNames := by
      rw [← h]
      exact List.mem_map_of_mem Prod.fst hx
    simp only [beq_iff_eq]
    intro heq
    rw [heq] at hx1
    exact absurd hx1 (by decide)
  refine ⟨by decide, by decide, ?_, ?_⟩
  · simp [dispatchToolCall, hnone]
  · simp [dispatchToolCall, hnone]

theorem filter_ne_eq_erase (l : List VRow) (r : VRow) (hr : r ∈ l)
    (hnd : List.Pairwise (fun a b => a.id ≠ b.id) l) :
    l.filter (fun w => !(w.id == r.id)) = l.erase r := by
  induction l with
  | nil => cases hr
  | cons a t ih =>
    rcases List.mem_cons.mp hr with ha | ht
    · subst ha
      have hall : ∀ w ∈ t, w.id ≠ r.id := by
        intro w hw
        exact (List.rel_of_pairwise_cons hnd hw).symm
      have h1 : (r :: t).filter (fun w => !(w.id == r.id))
          = t.filter (fun w => !(w.id == r.id)) := by
        simp [List.filter_cons]
      have h2 : t.filter (fun w => !(w.id == r.id)) = t := by
        apply List.filter_eq_self.mpr
        intro w hw
        simp [hall w hw]
      rw [h1, h2, List.erase_cons_head]
    · have hane : a.id ≠ r.id := List.rel_of_pairwise_cons hnd ht
      have hane2 : a ≠ r := fun h => hane (h ▸ rfl)
      have h1 : (a :: t).filter (fun w => !(w.id == r.id))
          = a :: t.filter (fun w => !(w.id == r.id)) := by
        simp [List.filter_cons, hane]
      rw [h1, ih ht hnd.of_cons, List.erase_cons_tail]
      simp [hane2]

/-- C9: on a missing `vectorId` both the `update` and the `delete`
operations of `manageVector` produce an error result and leave the
database unchanged; deleting an existing `vectorId` removes exactly that
row and reports `deleted: true`. -/
theorem manageVector_spec (db : Db) (vid : ℕ) (vec : List Scalar)
    (md : Option String) (now : ℕ) (h0 : vid ≠ 0) :
    manageVectorSpec db vid vec md now := by
  constructor
  · intro habs
    have hfind : db.vectors.find? (fun r => r.id == vid) = none := by
      apply List.find?_eq_none.mpr
      intro r hr
      simp [habs r hr]
    constructor
    · simp [manageVectorUpdate, h0, hfind]
    · simp [manageVectorDelete, h0, hfind]
  · intro r hr hrid hnd
    cases hfind : db.vectors.find? (fun y => y.id == vid) with
    | none =>
      exact absurd (List.find?_eq_none.mp hfind r hr) (by simp [hrid])
    | some x =>
      have hres : manageVectorDelete db vid =
          ({ db with vectors := db.vectors.filter (fun w => !(w.id == vid)) },
            { isError := false, message := "", deleted := true }) := by
        simp [manageVectorDelete, h0, hfind]
      refine ⟨by rw [hres], ?_, ?_, ?_⟩
      · rw [hres]
        have : db.vectors.filter (fun w => !(w.id == vid))
            = db.vectors.filter (fun w => !(w.id == r.id)) := by
          rw [hrid]
        rw [this]
        exact filter_ne_eq_erase db.vectors r hr hnd
      · intro w hw hwid
        rw [hres]
        exact List.mem_filter.mpr ⟨hw, by simp [hwid]⟩
      · rw [hres]
        intro habs
        have := (List.mem_filter.mp habs).2
        simp [hrid] at this

/-- C9 witness: the spec applied at the two-row fixture with an existing
row id. -/
theorem manageVector_spec_witness : manageVectorSpec dbVecs 1 [9] none 99 :=
  manageVector_spec dbVecs 1 [9] none 99 (by decide)

/-- C3: whichever path executes, `findSimilarVectors` returns at most
`limit` entries, every returned similarity is at or above the threshold,
and the list is ordered by descending similarity. -/
theorem findSimilarVectors_spec (flag : Bool) (M : JsMath) (q : List Scalar)
    (ct : Option String) (limit : ℕ) (threshold : Scalar) (rows : List VRow) :
    (findSimilarVectors flag M q ct limit threshold rows).length ≤ limit ∧
      (∀ p ∈ findSimilarVectors flag M q ct limit threshold rows, threshold ≤ p.2) ∧
      List.Sorted (descBy (Prod.snd : VRow × Scalar → Scalar))
        (findSimilarVectors flag M q ct limit threshold rows) := by
  cases flag with
  | true =>
    refine ⟨?_, ?_, ?_⟩
    · simp only [findSimilarVectors, if_pos, findSimilarVectorsIndexed]
      rw [List.length_take]
      exact min_le_left _ _
    · intro p hp
      simp only [findSimilarVectors, if_pos, findSimilarVectorsIndexed] at hp
      have hp2 := List.mem_of_mem_take hp
      have := (List.mem_filter.mp hp2).2
      have := (Bool.and_eq_true _ _).mp this |>.2
      exact of_decide_eq_true this
    · simp only [findSimilarVectors, if_pos, findSimilarVectorsIndexed, vectorTopK]
      exact sorted_take (((sorted_take (sortByDesc_sorted _ _) _).filter _)) _
  | false =>
    refine ⟨?_, ?_, ?_⟩
    · simp only [findSimilarVectors, findSimilarVectorsScan,
        Bool.false_eq_true, if_false]
      rw [List.length_take]
      exact min_le_left _ _
    · intro p hp
      simp only [findSimilarVectors, findSimilarVectorsScan,
        Bool.false_eq_true, if_false] at hp
      have hp2 := List.mem_of_mem_take hp
      have := (List.mem_filter.mp (mem_sortByDesc.mp hp2)).2
      exact of_decide_eq_true this
    · simp only [findSimilarVectors, findSimilarVectorsScan,
        Bool.false_eq_true, if_false]
      exact sorted_take (sortByDesc_sorted _ _) _

/-- C3 witness: the bounds at a concrete query over the example store. -/
theorem findSimilarVectors_spec_witness :
    (findSimilarVectors false M1 [3, 4] (some "b") 1 (1 / 2) exRows).length ≤ 1 ∧
      (∀ p ∈ findSimilarVectors false M1 [3, 4] (some "b") 1 (1 / 2) exRows,
        (1 : Scalar) / 2 ≤ p.2) ∧
      List.Sorted (descBy (Prod.snd : VRow × Scalar → Scalar))
        (findSimilarVectors false M1 [3, 4] (some "b") 1 (1 / 2) exRows) :=
  findSimilarVectors_spec false M1 [3, 4] (some "b") 1 (1 / 2) exRows

/-- C4: on a non-empty item list the relevance scorer returns only items
scoring at or above the threshold, sorted by descending relevance; an
item with no stored fingerprint of the requested content types is scored
`0` and is excluded whenever the threshold is positive (and the scorer is
a total function, so no error is raised). -/
theorem scoreItems_spec {α : Type} (M : JsMath) (rows : List VRow)
    (idOf : α → ℕ) (items : List α) (q : List Scalar) (pt : String)
    (st : Option String) (threshold : Scalar) (hne : items ≠ []) :
    (∀ p ∈ scoreItemsByRelevance M rows idOf items q pt st threshold,
      threshold ≤ p.2) ∧
      List.Sorted (descBy (Prod.snd : α × Scalar → Scalar))
        (scoreItemsByRelevance M rows idOf items q pt st threshold) ∧
      (∀ it ∈ items, lookupTypedVector rows pt st (idOf it) = none →
        (it, (0 : Scalar)) ∈ scoreItemsRaw M rows idOf items q pt st ∧
        (0 < threshold → ∀ s,
          (it, s) ∉ scoreItemsByRelevance M rows idOf items q pt st threshold)) := by
  have hemp : items.isEmpty = false := by
    cases items with
    | nil => exact absurd rfl hne
    | cons a t => rfl
  have heq : scoreItemsByRelevance M rows idOf items q pt st threshold =
      sortByDesc Prod.snd
        ((scoreItemsRaw M rows idOf items q pt st).filter
          (fun p => decide (threshold ≤ p.2))) := by
    simp [scoreItemsByRelevance, hemp]
  refine ⟨?_, ?_, ?_⟩
  · intro p hp
    rw [heq] at hp
    exact of_decide_eq_true (List.mem_filter.mp (mem_sortByDesc.mp hp)).2
  · rw [heq]
    exact sortByDesc_sorted _ _
  · intro it hit hnone
    constructor
    · simp only [scoreItemsRaw, List.mem_map]
      exact ⟨it, hit, by simp [hnone]⟩
    · intro hpos s hmem
      rw [heq] at hmem
      have hfil := List.mem_filter.mp (mem_sortByDesc.mp hmem)
      have hraw := hfil.1
      have hthr : threshold ≤ s := of_decide_eq_true hfil.2
      simp only [scoreItemsRaw, List.mem_map] at hraw
      obtain ⟨item, _, hpair⟩ := hraw
      have h1 : item = it := congrArg Prod.fst hpair
      have h2 : (match lookupTypedVector rows pt st (idOf item) with
          | some v => cosineSimilarity M q v
          | none => 0) = s := congrArg Prod.snd hpair
      rw [h1, hnone] at h2
      rw [← h2] at hthr
      exact absurd (lt_of_lt_of_le hpos hthr) (lt_irrefl 0)

theorem fst_mem_of_mem_scoreItems {α : Type _} {M : JsMath} {rows : List VRow}
    {idOf : α → ℕ} {items : List α} {q : List Scalar} {pt : String}
    {st : Option String} {threshold : Scalar} {p : α × Scalar}
    (hp : p ∈ scoreItemsByRelevance M rows idOf items q pt st threshold) :
    p.1 ∈ items := by
  by_cases hemp : items.isEmpty = true
  · rw [scoreItemsByRelevance, if_pos hemp] at hp
    cases hp
  · rw [scoreItemsByRelevance, if_neg hemp] at hp
    have hraw := (List.mem_filter.mp (mem_sortByDesc.mp hp)).1
    simp only [scoreItemsRaw, List.mem_map] at hraw
    obtain ⟨item, hitem, hpair⟩ := hraw
    have : item = p.1 := congrArg Prod.fst hpair
    rwa [this] at hitem

/-- C2 counterexample: a milestone stored with importance `low` appears
in the `longTerm.milestones` partition of the assembled context — the
milestones query carries no importance filter. -/
theorem longTerm_low_milestone_counterexample :
    (getComprehensiveContext M0 false dbLowMilestone none).longTerm.milestones =
      [(lowMilestone, none)] ∧
      lowMilestone.importance = "low" :=
  ⟨rfl, rfl⟩

/-- C2 (amended): every decision and every requirement returned in the
`longTerm` partition has importance `medium`, `high` or `critical` (their
queries filter on importance); milestones are not filtered. -/
theorem longTerm_importance_filter (M : JsMath) (flag : Bool) (db : Db)
    (um : Option (List ℕ)) :
    (∀ p ∈ (getComprehensiveContext M flag db um).longTerm.decisions,
      importanceAtLeastMedium p.1 = true) ∧
      (∀ p ∈ (getComprehensiveContext M flag db um).longTerm.requirements,
        importanceAtLeastMedium p.1 = true) := by
  have hfetch : ∀ (l : List LtRow) (x : LtRow),
      x ∈ (sortByDesc LtRow.created_at (l.filter importanceAtLeastMedium)).take 10 →
        importanceAtLeastMedium x = true := by
    intro l x hx
    exact (List.mem_filter.mp (mem_sortByDesc.mp (List.mem_of_mem_take hx))).2
  cases um with
  | none =>
    constructor
    · intro p hp
      have hd : (getComprehensiveContext M flag db none).longTerm.decisions =
          (((sortByDesc LtRow.created_at
            (db.decisions.filter importanceAtLeastMedium)).take 10).take 3).map
            (fun d => (d, none)) := rfl
      rw [hd] at hp
      obtain ⟨d, hd2, hdp⟩ := List.mem_map.mp hp
      have : d = p.1 := congrArg Prod.fst hdp
      rw [← this]
      exact hfetch db.decisions d (List.mem_of_mem_take hd2)
    · intro p hp
      have hr : (getComprehensiveContext M flag db none).longTerm.requirements =
          (((sortByDesc LtRow.created_at
            (db.requirements.filter importanceAtLeastMedium)).take 10).take 3).map
            (fun r => (r, none)) := rfl
      rw [hr] at hp
      obtain ⟨d, hd2, hdp⟩ := List.mem_map.mp hp
      have : d = p.1 := congrArg Prod.fst hdp
      rw [← this]
      exact hfetch db.requirements d (List.mem_of_mem_take hd2)
  | some t =>
    constructor
    · intro p hp
      have hd : (getComprehensiveContext M flag db (some t)).longTerm.decisions =
          ((scoreItemsByRelevance M db.vectors LtRow.id
            ((sortByDesc LtRow.created_at
              (db.decisions.filter importanceAtLeastMedium)).take 10)
            (createEmbedding M t 128) "decision" none (1 / 2)).take 3).map
            (fun p => (p.1, jsRelevance p.2)) := rfl
      rw [hd] at hp
      obtain ⟨d, hd2, hdp⟩ := List.mem_map.mp hp
      have hfst : d.1 = p.1 := congrArg Prod.fst hdp
      rw [← hfst]
      exact hfetch db.decisions d.1
        (fst_mem_of_mem_scoreItems (List.mem_of_mem_take hd2))
    · intro p hp
      have hr : (getComprehensiveContext M flag db (some t)).longTerm.requirements =
          ((scoreItemsByRelevance M db.vectors LtRow.id
            ((sortByDesc LtRow.created_at
              (db.requirements.filter importanceAtLeastMedium)).take 10)
            (createEmbedding M t 128) "requirement" none (1 / 2)).take 3).map
            (fun p => (p.1, jsRelevance p.2)) := rfl
      rw [hr] at hp
      obtain ⟨d, hd2, hdp⟩ := List.mem_map.mp hp
      have hfst : d.1 = p.1 := congrArg Prod.fst hdp
      rw [← hfst]
      exact hfetch db.requirements d.1
        (fst_mem_of_mem_scoreItems (List.mem_of_mem_take hd2))

/-- C2 (amended) witness: the importance filter at a database holding one
medium decision. -/
theorem longTerm_importance_filter_witness :
    (∀ p ∈ (getComprehensiveContext M0 false dbMediumDecision none).longTerm.decisions,
      importanceAtLeastMedium p.1 = true) ∧
      (∀ p ∈ (getComprehensiveContext M0 false dbMediumDecision none).longTerm.requirements,
        importanceAtLeastMedium p.1 = true) :=
  longTerm_importance_filter M0 false dbMediumDecision none

/-- C5: with no query, every partition of the assembled context carries
`relevance = null`, the `semantic` partition stays empty, and
`recentMessages` holds exactly the `min(5, total)` most recent messages
in descending creation order (every unselected message is at most as
recent as every selected one). -/
theorem take_take_of_le {γ : Type _} (m n : ℕ) (h : m ≤ n) (l : List γ) :
    (l.take n).take m = l.take m := by
  rw [List.take_take, min_eq_left h]

theorem contextNoQuery_spec (M : JsMath) (flag : Bool) (db : Db) :
    contextNoQuerySpec M flag db := by
  have hm : (getComprehensiveContext M flag db none).shortTerm.recentMessages =
      (((sortByDesc Msg.created_at db.messages).take 15).take 5).map
        (fun m => (m, none)) := rfl
  have h55 : ((sortByDesc Msg.created_at db.messages).take 15).take 5 =
      (sortByDesc Msg.created_at db.messages).take 5 :=
    take_take_of_le 5 15 (by norm_num) _
  have hm5 : (getComprehensiveContext M flag db none).shortTerm.recentMessages =
      ((sortByDesc Msg.created_at db.messages).take 5).map (fun m => (m, none)) := by
    rw [hm, h55]
  refine ⟨hm5, ?_, ?_, ?_, ?_, ?_, rfl, ?_, ?_, ?_⟩
  · have : (getComprehensiveContext M flag db none).shortTerm.activeFiles =
        (((sortByDesc AFile.last_accessed db.active_files).take 10).take 5).map
          (fun f => (f, none)) := rfl
    rw [this, take_take_of_le 5 10 (by norm_num)]
  · have : (getComprehensiveContext M flag db none).longTerm.milestones =
        (((sortByDesc LtRow.created_at db.milestones).take 10).take 3).map
          (fun m => (m, none)) := rfl
    rw [this, take_take_of_le 3 10 (by norm_num)]
  · have : (getComprehensiveContext M flag db none).longTerm.decisions =
        (((sortByDesc LtRow.created_at
          (db.decisions.filter importanceAtLeastMedium)).take 10).take 3).map
          (fun d => (d, none)) := rfl
    rw [this, take_take_of_le 3 10 (by norm_num)]
  · have : (getComprehensiveContext M flag db none).longTerm.requirements =
        (((sortByDesc LtRow.created_at
          (db.requirements.filter importanceAtLeastMedium)).take 10).take 3).map
          (fun r => (r, none)) := rfl
    rw [this, take_take_of_le 3 10 (by norm_num)]
  · have : (getComprehensiveContext M flag db none).episodic.recentEpisodes =
        (((sortByDesc Epi.timestamp db.episodes).take 15).take 5).map
          (fun e => (e, none)) := rfl
    rw [this, take_take_of_le 5 15 (by norm_num)]
  · rw [hm5, List.length_map, List.length_take, length_sortByDesc]
  · rw [hm5, List.map_map]
    have : (Prod.fst ∘ fun m : Msg => (m, (none : Option Scalar))) = id := rfl
    rw [this, List.map_id]
    exact sorted_take (sortByDesc_sorted _ _) _
  · intro p hp m hmdb hmnot
    rw [hm5] at hp hmnot
    obtain ⟨pm, hpm, hpeq⟩ := List.mem_map.mp hp
    have hp1 : pm = p.1 := congrArg Prod.fst hpeq
    have hmem : m ∈ sortByDesc Msg.created_at db.messages := mem_sortByDesc.mpr hmdb
    have hnottake : m ∉ (sortByDesc Msg.created_at db.messages).take 5 := by
      intro habs
      exact hmnot (List.mem_map.mpr ⟨m, habs, rfl⟩)
    have hdrop : m ∈ (sortByDesc Msg.created_at db.messages).drop 5 := by
      rcases List.mem_append.mp
        ((List.take_append_drop 5 (sortByDesc Msg.created_at db.messages)) ▸ hmem) with
        h | h
      · exact absurd h hnottake
      · exact h
    have := List.Sorted.rel_of_mem_take_of_mem_drop
      (sortByDesc_sorted Msg.created_at db.messages) (hp1 ▸ hpm) hdrop
    exact this

/-- C5 witness: the no-query context spec at the seven-message fixture. -/
theorem contextNoQuery_spec_witness : contextNoQuerySpec M0 false dbMessages :=
  contextNoQuery_spec M0 false dbMessages

theorem sortByDesc_singleton {α : Type _} {β : Type _} [LinearOrder β]
    (key : α → β) (x : α) : sortByDesc key [x] = [x] := by
  simp [sortByDesc, List.insertionSort, List.orderedInsert]

theorem filter_key_singleton (l : List VRow) (h : vectorKeyUnique l)
    (v : VRow) (hv : v ∈ l) :
    l.filter (fun w =>
      w.content_id == v.content_id && w.content_type == v.content_type) = [v] := by
  induction l with
  | nil => cases hv
  | cons a t ih =>
    rcases List.mem_cons.mp hv with ha | ht
    · subst ha
      have hall : ∀ w ∈ t,
          ¬(v.content_id = w.content_id ∧ v.content_type = w.content_type) := by
        intro w hw
        have := List.rel_of_pairwise_cons h hw
        intro hc
        exact this ⟨hc.1, hc.2⟩
      have h1 : (v :: t).filter (fun w =>
          w.content_id == v.content_id && w.content_type == v.content_type)
          = v :: t.filter (fun w =>
            w.content_id == v.content_id && w.content_type == v.content_type) := by
        simp [List.filter_cons]
      have h2 : t.filter (fun w =>
          w.content_id == v.content_id && w.content_type == v.content_type) = [] := by
        apply List.filter_eq_nil_iff.mpr
        intro w hw
        have := hall w hw
        simp only [Bool.and_eq_true, beq_iff_eq]
        intro hc
        exact this ⟨hc.1.symm, hc.2.symm⟩
      rw [h1, h2]
    · have hna := List.rel_of_pairwise_cons h ht
      have h1 : (a :: t).filter (fun w =>
          w.content_id == v.content_id && w.content_type == v.content_type)
          = t.filter (fun w =>
            w.content_id == v.content_id && w.content_type == v.content_type) := by
        have : (a.content_id == v.content_id && a.content_type == v.content_type) = false := by
          simp only [Bool.and_eq_false_iff, beq_eq_false_iff_ne]
          by_cases hcid : a.content_id = v.content_id
          · right
            intro hct
            exact hna ⟨hcid, hct⟩
          · left
            exact hcid
        simp [List.filter_cons, this]
      rw [h1]
      exact ih h.of_cons ht

theorem optimizeVectorStorage_id (l : List VRow) (h : vectorKeyUnique l) :
    optimizeVectorStorage l = l := by
  apply List.filter_eq_self.mpr
  intro v hv
  rw [filter_key_singleton l h v hv, sortByDesc_singleton]
  simp

/-- C8: on a vectors table with at most one fingerprint per
`(content_id, content_type)` key, default-option maintenance deletes
exactly the orphaned fingerprints: every `user_message` or
`assistant_message` fingerprint whose owning message row is gone is
removed, every fingerprint whose owner still exists (and every
fingerprint of an unrelated type) survives untouched, and no other table
changes. -/
theorem performVectorMaintenance_spec (db : Db)
    (h : vectorKeyUnique db.vectors) : maintenanceSpec db := by
  have hclean : vectorKeyUnique (cleanOrphanVectors db) :=
    h.sublist (List.filter_sublist _)
  have hmain : (performVectorMaintenance db).vectors =
      db.vectors.filter (fun v => !(isOrphan db v)) := by
    show optimizeVectorStorage (cleanOrphanVectors db) = _
    rw [optimizeVectorStorage_id _ hclean]
    rfl
  refine ⟨hmain, ?_, ?_, rfl, rfl, rfl⟩
  · intro v hv htype hnomsg
    rw [hmain]
    intro habs
    have hpred := (List.mem_filter.mp habs).2
    have horph : isOrphan db v = true := by
      have htype2 : (v.content_type == "user_message" ||
          v.content_type == "assistant_message" ||
          v.content_type == "assistant_code_snippet") = true := by
        rcases htype with h1 | h1 <;> simp [h1]
      have hany : db.messages.any (fun m => m.id == v.content_id) = false := by
        rw [List.any_eq_false]
        intro m hm
        simp [hnomsg m hm]
      simp [isOrphan, htype2, hany]
    rw [horph] at hpred
    cases hpred
  · intro v hv horph
    rw [hmain]
    exact List.mem_filter.mpr ⟨hv, by simp [horph]⟩

/-- C8 witness: maintenance at the fixture with one orphaned, one owned
and one unrelated fingerprint. -/
theorem performVectorMaintenance_spec_witness : maintenanceSpec dbMaint :=
  performVectorMaintenance_spec dbMaint (by unfold vectorKeyUnique; decide)

theorem annotate_filter (M : JsMath) (q : List Scalar) (p : VRow → Bool)
    (rows : List VRow) :
    annotate M q (rows.filter p) = (annotate M q rows).filter (fun pr => p pr.1) := by
  induction rows with
  | nil => rfl
  | cons a t ih =>
    by_cases hpa : p a = true
    · simp [annotate, List.filter_cons, hpa] at ih ⊢
      exact ih
    · have hpa2 : p a = false := by
        cases hq : p a
        · rfl
        · exact absurd hq hpa
      simp [annotate, List.filter_cons, hpa2] at ih ⊢
      exact ih

/-- C1 (amended): the index-accelerated path and the linear-scan
fallback of `findSimilarVectors` agree whenever the whole vectors table
fits inside the `limit * 2` candidate request — here they agree exactly,
because both end in the same stable descending order. -/
theorem findSimilarVectors_paths_agree (M : JsMath) (q : List Scalar)
    (ct : Option String) (limit : ℕ) (threshold : Scalar) (rows : List VRow)
    (h : rows.length ≤ limit * 2) :
    findSimilarVectors true M q ct limit threshold rows =
      findSimilarVectors false M q ct limit threshold rows := by
  have hlen : (sortByDesc Prod.snd (annotate M q rows)).length ≤ limit * 2 := by
    rw [length_sortByDesc]
    simpa [annotate] using h
  have h1 : findSimilarVectors true M q ct limit threshold rows =
      ((sortByDesc Prod.snd (annotate M q rows)).filter
        (fun p => matchesType ct p.1 && decide (threshold ≤ p.2))).take limit := by
    simp only [findSimilarVectors, if_pos, findSimilarVectorsIndexed, vectorTopK]
    rw [List.take_of_length_le hlen]
  have h2 : findSimilarVectors false M q ct limit threshold rows =
      (sortByDesc Prod.snd
        (((annotate M q rows).filter (fun pr => matchesType ct pr.1)).filter
          (fun p => decide (threshold ≤ p.2)))).take limit := by
    simp only [findSimilarVectors, Bool.false_eq_true, if_false,
      findSimilarVectorsScan]
    rw [annotate_filter]
  rw [h1, h2, filter_sortByDesc, List.filter_filter]
  have hpred : ∀ x ∈ annotate M q rows,
      (matchesType ct x.1 && decide (threshold ≤ x.2)) =
        (decide (threshold ≤ x.2) && matchesType ct x.1) :=
    fun x _ => Bool.and_comm _ _
  rw [List.filter_congr hpred]

/-- C1 (amended) witness: both paths at a one-row store within the
candidate budget. -/
theorem findSimilarVectors_paths_agree_witness :
    findSimilarVectors true M1 [3, 4] (some "b") 1 (1 / 2) [exB] =
      findSimilarVectors false M1 [3, 4] (some "b") 1 (1 / 2) [exB] :=
  findSimilarVectors_paths_agree M1 [3, 4] (some "b") 1 (1 / 2) [exB] (by decide)

/-- C1 counterexample: with three stored fingerprints, `limit = 1` and a
content-type filter, the index path requests only the two nearest rows,
both of the wrong type, and returns nothing, while the linear scan
returns the matching row — the two paths differ even as sets. -/
theorem findSimilarVectors_paths_differ :
    findSimilarVectors true M1 [3, 4] (some "b") 1 (1 / 2) exRows = [] ∧
      findSimilarVectors false M1 [3, 4] (some "b") 1 (1 / 2) exRows =
        [(exB, 4 / 5)] := by
  have hA1 : cosineSimilarity M1 [3, 4] exA1.vector = 1 := by
    norm_num [cosineSimilarity, M1, sqrtTable, exA1]
  have hA2 : cosineSimilarity M1 [3, 4] exA2.vector = 24 / 25 := by
    norm_num [cosineSimilarity, M1, sqrtTable, exA2]
  have hB : cosineSimilarity M1 [3, 4] exB.vector = 4 / 5 := by
    norm_num [cosineSimilarity, M1, sqrtTable, exB]
  have hann : annotate M1 [3, 4] exRows =
      [(exA1, 1), (exA2, 24 / 25), (exB, 4 / 5)] := by
    simp [annotate, exRows, hA1, hA2, hB]
  have hsort : sortByDesc Prod.snd (annotate M1 [3, 4] exRows) =
      [(exA1, 1), (exA2, 24 / 25), (exB, 4 / 5)] := by
    rw [hann]
    simp only [sortByDesc, List.insertionSort, List.orderedInsert]
    norm_num [descBy]
  constructor
  · simp only [findSimilarVectors, if_pos, findSimilarVectorsIndexed, vectorTopK,
      hsort]
    norm_num [matchesType, exA1, exA2]
    decide
  · simp only [findSimilarVectors, Bool.false_eq_true, if_false,
      findSimilarVectorsScan]
    have hfil : exRows.filter (matchesType (some "b")) = [exB] := by
      simp [exRows, matchesType, exA1, exA2, exB]
    rw [hfil]
    have : annotate M1 [3, 4] [exB] = [(exB, 4 / 5)] := by
      simp [annotate, hB]
    rw [this]
    norm_num [sortByDesc, List.insertionSort, List.orderedInsert]

/-- C4 witness: the scorer spec at a singleton item list with an empty
fingerprint store and positive threshold. -/
theorem scoreItems_spec_witness :
    (∀ p ∈ scoreItemsByRelevance M0 [] (fun n : ℕ => n) [7] [] "m" none 1,
      (1 : Scalar) ≤ p.2) ∧
      List.Sorted (descBy (Prod.snd : ℕ × Scalar → Scalar))
        (scoreItemsByRelevance M0 [] (fun n : ℕ => n) [7] [] "m" none 1) ∧
      (∀ it ∈ [7], lookupTypedVector [] "m" none ((fun n : ℕ => n) it) = none →
        (it, (0 : Scalar)) ∈ scoreItemsRaw M0 [] (fun n : ℕ => n) [7] [] "m" none ∧
        (0 < (1 : Scalar) → ∀ s,
          (it, s) ∉ scoreItemsByRelevance M0 [] (fun n : ℕ => n) [7] [] "m" none 1)) :=
  scoreItems_spec M0 [] (fun n : ℕ => n) [7] [] "m" none 1 (by decide)

/-- C10 witness: the dispatch default branch at a concrete handler table
with exactly the handled case names. -/
theorem storeAssistantMessage_unhandled_witness :
    "storeAssistantMessage" ∈ memoryToolNames ∧
      "storeAssistantMessage" ∉ handledCaseNames ∧
      dispatchToolCall trivialHandlers "storeAssistantMessage" emptyDb =
        (emptyDb, unknownToolResult "storeAssistantMessage") ∧
      (dispatchToolCall trivialHandlers "storeAssistantMessage" emptyDb).1.messages =
        emptyDb.messages :=
  storeAssistantMessage_unhandled trivialHandlers emptyDb rfl

end Cursor10x
